import Mathlib

/-!
# The input manager of game.libretro

A shallow embedding of `src/input/InputManager.cpp` (class `CInputManager`).

* The manager's members `m_devices` (a `std::map` from port to a device pointer),
  `m_mouseDevice` and `m_pressedKeys` become the fields of a structure, and every
  member function becomes a function from the state before the call to an
  `Outcome`: the value returned, the state after the call, and the calls made on
  the collaborators (client bridge, frontend, device input handlers) in order.
* `std::map` is a list of (port, pointer) entries kept in ascending port order; a
  null pointer is `none`.  `m_devices[port]` inserts an entry holding a null
  pointer when the port has none, as `std::map::operator[]` does.
* The headers `LibretroDevice.h`, `LibretroDeviceInput.h`, `libretro.h`,
  `kodi_game_types.h`, `LibretroTranslator.h` are not among the sources: the
  constants, types and functions they declare are the fields of `Platform`.
* `dsyslog` writes a log line and nothing else; it is left out.  `CLockObject`
  serialises the callers of `HandlePress` and `IsPressed`; the embedding is
  sequential.
-/

namespace LIBRETRO

/-- The struct `game_key_event`: `pressed`, `character` (uint32) and `modifiers`. -/
structure game_key_event where
  pressed : Bool
  character : Nat
  modifiers : Nat
deriving DecidableEq, Repr

/-- The struct `game_input_event`: the discriminating `type`, the `port`, the `key` member
of the union (read for key events only) and the other members of the union. -/
structure game_input_event (Payload : Type) where
  type : Nat
  port : Int
  key : game_key_event
  payload : Payload

/-- What the headers that are not among the sources declare: the device class
`CLibretroDevice` with its input object, the enumeration constants, and the translator.
A method called through `Input()` returns its result and the device after the call. -/
structure Platform where
  /-- The class `CLibretroDevice` together with its `CLibretroDeviceInput`. -/
  Device : Type
  /-- The argument `const game_controller*` of the constructor of a device. -/
  Controller : Type
  /-- The members of the union of `game_input_event` other than `key`. -/
  Payload : Type
  /-- The type `float` of the coordinates written by the polling accessors. -/
  Scalar : Type
  GAME_INPUT_EVENT_KEY : Nat
  GAME_INPUT_PORT_MOUSE : Int
  RETRO_DEVICE_JOYPAD : Nat
  RETRO_DEVICE_MOUSE : Nat
  RETRO_DEVICE_KEYBOARD : Nat
  RETRO_DEVICE_LIGHTGUN : Nat
  RETRO_DEVICE_ANALOG : Nat
  RETRO_DEVICE_POINTER : Nat
  /-- The controller struct whose `controller_id` is "game.controller.mouse". -/
  mouseControllerStruct : Controller
  /-- The constructor `CLibretroDevice(const game_controller*)`. -/
  make_shared : Controller → Device
  ControllerID : Device → String
  Type_ : Device → Nat
  InputEvent : game_input_event Payload → Device → Bool × Device
  ButtonState : Nat → Device → Bool × Device
  RelativePointerDeltaX : Device → Int × Device
  RelativePointerDeltaY : Device → Int × Device
  AnalogStickState : Nat → Scalar → Scalar → Device → (Bool × Scalar × Scalar) × Device
  AbsolutePointerState : Nat → Scalar → Scalar → Device → (Bool × Scalar × Scalar) × Device
  AccelerometerState : Scalar → Scalar → Scalar → Device →
    (Bool × Scalar × Scalar × Scalar) × Device
  /-- The function `LibretroTranslator::GetKeyCode`. -/
  GetKeyCode : Nat → Nat
  /-- The function `LibretroTranslator::GetKeyModifiers`. -/
  GetKeyModifiers : Nat → Nat

/-- The singleton `CLibretroEnvironment`, as far as the manager reads it: whether
`GetFrontend()` and `GetClientBridge()` return a non-null pointer. -/
structure CLibretroEnvironment where
  frontend : Bool
  clientBridge : Bool
deriving DecidableEq, Repr

/-- A call the manager makes on a collaborator. -/
inductive Call (P : Platform) where
  /-- The call `clientBridge->KeyboardEvent(down, keycode, character, key_modifiers)`. -/
  | KeyboardEvent (down : Bool) (keycode character key_modifiers : Nat)
  /-- The call `GetFrontend()->OpenPort(port)`. -/
  | OpenPort (port : Nat)
  /-- The call `GetFrontend()->ClosePort(port)`. -/
  | ClosePort (port : Nat)
  /-- The call `m_mouseDevice->Input().InputEvent(event)`. -/
  | MouseInput (event : game_input_event P.Payload)
  /-- The call `m_devices[port]->Input().InputEvent(event)`. -/
  | DeviceInput (port : Nat) (event : game_input_event P.Payload)

/-- Whether a call is the invocation of the input handler of a device. -/
def Call.isInputHandler {P : Platform} : Call P → Bool
  | Call.MouseInput _ => true
  | Call.DeviceInput _ _ => true
  | _ => false

/-- The type of `m_devices`: entries (port, pointer), ascending in the port. -/
abbrev DeviceMap (P : Platform) := List (Nat × Option P.Device)

/-- The lookup `std::map::find(port)`: the entry of the port, if the map has one. -/
def mapFind {P : Platform} : DeviceMap P → Nat → Option (Option P.Device)
  | [], _ => none
  | (k, x) :: rest, port => if k = port then some x else mapFind rest port

/-- The assignment `m_devices[port] = ptr`: the entry of the port is created in key order
when the map has none, and its pointer is replaced. -/
def mapAssign {P : Platform} : DeviceMap P → Nat → Option P.Device → DeviceMap P
  | [], port, ptr => [(port, ptr)]
  | (k, x) :: rest, port, ptr =>
    if port < k then (port, ptr) :: (k, x) :: rest
    else if port = k then (k, ptr) :: rest
    else (k, x) :: mapAssign rest port ptr

/-- The map after evaluating `m_devices[port]`: an entry holding a null pointer is
inserted when the port has no entry. -/
def mapIndex {P : Platform} (m : DeviceMap P) (port : Nat) : DeviceMap P :=
  match mapFind m port with
  | some _ => m
  | none => mapAssign m port none

/-- The pointer that `m_devices[port]` evaluates to: the pointer of the entry, null when the
port has no entry. -/
def mapGet {P : Platform} (m : DeviceMap P) (port : Nat) : Option P.Device :=
  match mapFind m port with
  | some x => x
  | none => none

/-- The members of `CInputManager`. -/
structure CInputManager (P : Platform) where
  m_devices : DeviceMap P
  m_mouseDevice : P.Device
  m_pressedKeys : List game_key_event

/-- What a member function does: the value returned, the manager after the call and the
calls made on the collaborators, in order. -/
structure Outcome (P : Platform) (α : Type) where
  ret : α
  state : CInputManager P
  calls : List (Call P)

/-- The conversion of `event.port` to `unsigned int`. -/
def toUnsigned (port : Int) : Nat := (port % 4294967296).toNat

namespace CInputManager

variable {P : Platform}

/-- The constructor `CInputManager::CInputManager`. -/
def new (P : Platform) : CInputManager P :=
  { m_devices := [], m_mouseDevice := P.make_shared P.mouseControllerStruct,
    m_pressedKeys := [] }

/-- The function `CInputManager::GetDeviceCaps`, a member function that reads no member. -/
def GetDeviceCaps (_s : CInputManager P) : Nat :=
  (1 <<< P.RETRO_DEVICE_JOYPAD) ||| (1 <<< P.RETRO_DEVICE_MOUSE) |||
  (1 <<< P.RETRO_DEVICE_KEYBOARD) ||| (1 <<< P.RETRO_DEVICE_LIGHTGUN) |||
  (1 <<< P.RETRO_DEVICE_ANALOG) ||| (1 <<< P.RETRO_DEVICE_POINTER)

/-- The function `CInputManager::DeviceConnected`. -/
def DeviceConnected (s : CInputManager P) (port : Nat) (bConnected : Bool)
    (connectedDevice : P.Controller) : Outcome P Unit :=
  if bConnected then
    ⟨(), { s with m_devices := mapAssign s.m_devices port (some (P.make_shared connectedDevice)) },
      []⟩
  else
    ⟨(), { s with m_devices := mapAssign s.m_devices port none }, []⟩

/-- The function `CInputManager::GetDevice`. -/
def GetDevice (s : CInputManager P) (port : Nat) : Outcome P Nat :=
  let m := mapIndex s.m_devices port
  match mapGet m port with
  | some dev => ⟨P.Type_ dev, { s with m_devices := m }, []⟩
  | none => ⟨0, { s with m_devices := m }, []⟩

/-- The function `CInputManager::OpenPort`. -/
def OpenPort (env : CLibretroEnvironment) (s : CInputManager P) (port : Nat) :
    Outcome P Bool :=
  if !env.frontend then ⟨false, s, []⟩
  else ⟨true, s, [Call.OpenPort port]⟩

/-- The function `CInputManager::GetPort`. -/
def GetPort (s : CInputManager P) (port : Nat) : Outcome P (Option P.Device) :=
  let m := mapIndex s.m_devices port
  ⟨mapGet m port, { s with m_devices := m }, []⟩

/-- The function `CInputManager::ClosePort`. -/
def ClosePort (env : CLibretroEnvironment) (s : CInputManager P) (port : Nat) :
    Outcome P Unit :=
  ⟨(), { s with m_devices := mapAssign s.m_devices port none },
    if env.frontend then [Call.ClosePort port] else []⟩

/-- The first loop of `ClosePorts`: the ports whose entry holds a device, in map order. -/
def occupiedPorts (m : DeviceMap P) : List Nat :=
  m.filterMap (fun e => if e.2.isSome then some e.1 else none)

/-- The second loop of `ClosePorts`: `ClosePort` on every collected port in turn. -/
def closeEach (env : CLibretroEnvironment) : CInputManager P → List Nat → Outcome P Unit
  | s, [] => ⟨(), s, []⟩
  | s, port :: ports =>
    let o := ClosePort env s port
    let r := closeEach env o.state ports
    ⟨(), r.state, o.calls ++ r.calls⟩

/-- The function `CInputManager::ClosePorts`. -/
def ClosePorts (env : CLibretroEnvironment) (s : CInputManager P) : Outcome P Unit :=
  closeEach env s (occupiedPorts s.m_devices)

/-- The function `CInputManager::EnableAnalogSensors`, whose body is empty. -/
def EnableAnalogSensors (s : CInputManager P) (_port : Nat) (_bEnabled : Bool) :
    Outcome P Unit :=
  ⟨(), s, []⟩

/-- The function `CInputManager::HandlePress` on the collection `m_pressedKeys`: a press is
appended, a release erases every entry of the same character. -/
def pressedAfter (keys : List game_key_event) (key : game_key_event) : List game_key_event :=
  if key.pressed then keys ++ [key]
  else keys.filter (fun pressedKey => !decide (pressedKey.character = key.character))

/-- The function `CInputManager::HandlePress`. -/
def HandlePress (s : CInputManager P) (key : game_key_event) : CInputManager P :=
  { s with m_pressedKeys := pressedAfter s.m_pressedKeys key }

/-- The function `CInputManager::IsPressed` on the collection `m_pressedKeys`. -/
def isPressedIn (keys : List game_key_event) (character : Nat) : Bool :=
  decide (keys.countP (fun keyEvent => decide (keyEvent.character = character)) > 0)

/-- The function `CInputManager::IsPressed`. -/
def IsPressed (s : CInputManager P) (character : Nat) : Bool :=
  isPressedIn s.m_pressedKeys character

/-- The function `CInputManager::InputEvent`. -/
def InputEvent (env : CLibretroEnvironment) (s : CInputManager P)
    (event : game_input_event P.Payload) : Outcome P Bool :=
  if event.type = P.GAME_INPUT_EVENT_KEY then
    ⟨true, HandlePress s event.key,
      if env.clientBridge then
        [Call.KeyboardEvent event.key.pressed (P.GetKeyCode event.key.character)
          event.key.character (P.GetKeyModifiers event.key.modifiers)]
      else []⟩
  else if event.port = P.GAME_INPUT_PORT_MOUSE then
    let r := P.InputEvent event s.m_mouseDevice
    ⟨r.1, { s with m_mouseDevice := r.2 }, [Call.MouseInput event]⟩
  else
    let port := toUnsigned event.port
    let m := mapIndex s.m_devices port
    match mapGet m port with
    | some dev =>
      let r := P.InputEvent event dev
      ⟨r.1, { s with m_devices := mapAssign m port (some r.2) }, [Call.DeviceInput port event]⟩
    | none => ⟨false, { s with m_devices := m }, []⟩

/-- The function `CInputManager::ControllerID`. -/
def ControllerID (s : CInputManager P) (port : Nat) : Outcome P String :=
  let m := mapIndex s.m_devices port
  match mapGet m port with
  | some dev => ⟨P.ControllerID dev, { s with m_devices := m }, []⟩
  | none => ⟨"", { s with m_devices := m }, []⟩

/-- The function `CInputManager::ButtonState`. -/
def ButtonState (s : CInputManager P) (device port buttonIndex : Nat) : Outcome P Bool :=
  if device = P.RETRO_DEVICE_KEYBOARD then
    ⟨IsPressed s buttonIndex, s, []⟩
  else if device = P.RETRO_DEVICE_MOUSE then
    let r := P.ButtonState buttonIndex s.m_mouseDevice
    ⟨r.1, { s with m_mouseDevice := r.2 }, []⟩
  else
    let m := mapIndex s.m_devices port
    match mapGet m port with
    | some dev =>
      let r := P.ButtonState buttonIndex dev
      ⟨r.1, { s with m_devices := mapAssign m port (some r.2) }, []⟩
    | none => ⟨false, { s with m_devices := m }, []⟩

/-- The function `CInputManager::DeltaX`. -/
def DeltaX (s : CInputManager P) (device port : Nat) : Outcome P Int :=
  if device = P.RETRO_DEVICE_MOUSE then
    let r := P.RelativePointerDeltaX s.m_mouseDevice
    ⟨r.1, { s with m_mouseDevice := r.2 }, []⟩
  else if device = P.RETRO_DEVICE_LIGHTGUN then
    let m := mapIndex s.m_devices port
    match mapGet m port with
    | some dev =>
      let r := P.RelativePointerDeltaX dev
      ⟨r.1, { s with m_devices := mapAssign m port (some r.2) }, []⟩
    | none => ⟨0, { s with m_devices := m }, []⟩
  else ⟨0, s, []⟩

/-- The function `CInputManager::DeltaY`. -/
def DeltaY (s : CInputManager P) (device port : Nat) : Outcome P Int :=
  if device = P.RETRO_DEVICE_MOUSE ∨ device = P.RETRO_DEVICE_LIGHTGUN then
    let r := P.RelativePointerDeltaY s.m_mouseDevice
    ⟨r.1, { s with m_mouseDevice := r.2 }, []⟩
  else if device = P.RETRO_DEVICE_LIGHTGUN then
    let m := mapIndex s.m_devices port
    match mapGet m port with
    | some dev =>
      let r := P.RelativePointerDeltaX dev
      ⟨r.1, { s with m_devices := mapAssign m port (some r.2) }, []⟩
    | none => ⟨0, { s with m_devices := m }, []⟩
  else ⟨0, s, []⟩

/-- The function `CInputManager::AnalogStickState`; the value returned is `bSuccess` with
the contents of `x` and `y` after the call. -/
def AnalogStickState (s : CInputManager P) (port analogStickIndex : Nat) (x y : P.Scalar) :
    Outcome P (Bool × P.Scalar × P.Scalar) :=
  let m := mapIndex s.m_devices port
  match mapGet m port with
  | some dev =>
    let r := P.AnalogStickState analogStickIndex x y dev
    ⟨r.1, { s with m_devices := mapAssign m port (some r.2) }, []⟩
  | none => ⟨(false, x, y), { s with m_devices := m }, []⟩

/-- The function `CInputManager::AbsolutePointerState`; the value returned is `bSuccess`
with the contents of `x` and `y` after the call. -/
def AbsolutePointerState (s : CInputManager P) (port pointerIndex : Nat) (x y : P.Scalar) :
    Outcome P (Bool × P.Scalar × P.Scalar) :=
  let m := mapIndex s.m_devices port
  match mapGet m port with
  | some dev =>
    let r := P.AbsolutePointerState pointerIndex x y dev
    ⟨r.1, { s with m_devices := mapAssign m port (some r.2) }, []⟩
  | none => ⟨(false, x, y), { s with m_devices := m }, []⟩

/-- The function `CInputManager::AccelerometerState`; the value returned is `bSuccess`
with the contents of `x`, `y` and `z` after the call. -/
def AccelerometerState (s : CInputManager P) (port : Nat) (x y z : P.Scalar) :
    Outcome P (Bool × P.Scalar × P.Scalar × P.Scalar) :=
  let m := mapIndex s.m_devices port
  match mapGet m port with
  | some dev =>
    let r := P.AccelerometerState x y z dev
    ⟨r.1, { s with m_devices := mapAssign m port (some r.2) }, []⟩
  | none => ⟨(false, x, y, z), { s with m_devices := m }, []⟩

end CInputManager

/-! ## A concrete platform

The constants are those of `libretro.h` and `kodi_game_types.h`; the device records
the number of events it has taken and answers the polls from it. -/

/-- A small device: its controller id, its type and the number of events it has handled. -/
structure SampleDevice where
  id : String
  kind : Nat
  events : Nat
deriving DecidableEq, Repr

/-- A platform for evaluating the manager on concrete inputs. -/
@[reducible] def samplePlatform : Platform where
  Device := SampleDevice
  Controller := String × Nat
  Payload := Nat
  Scalar := Int
  GAME_INPUT_EVENT_KEY := 4
  GAME_INPUT_PORT_MOUSE := -2
  RETRO_DEVICE_JOYPAD := 1
  RETRO_DEVICE_MOUSE := 2
  RETRO_DEVICE_KEYBOARD := 3
  RETRO_DEVICE_LIGHTGUN := 4
  RETRO_DEVICE_ANALOG := 5
  RETRO_DEVICE_POINTER := 6
  mouseControllerStruct := ("game.controller.mouse", 2)
  make_shared := fun c => ⟨c.1, c.2, 0⟩
  ControllerID := fun d => d.id
  Type_ := fun d => d.kind
  InputEvent := fun _ d => (true, { d with events := d.events + 1 })
  ButtonState := fun i d => (decide (i < d.events), d)
  RelativePointerDeltaX := fun d => (d.events, { d with events := 0 })
  RelativePointerDeltaY := fun d => (d.events, { d with events := 0 })
  AnalogStickState := fun _ _ _ d => ((true, d.events, d.events), d)
  AbsolutePointerState := fun _ _ _ d => ((true, d.events, d.events), d)
  AccelerometerState := fun _ _ _ d => ((true, d.events, d.events, d.events), d)
  GetKeyCode := fun c => c
  GetKeyModifiers := fun m => m

/-! ## Concrete inputs -/

/-- A manager with devices at ports 1, 3 and 7, an entry holding a null pointer at port 5,
a device stored under the unsigned value of the mouse port, and the key 97 held down. -/
def sampleManager : CInputManager samplePlatform :=
  { m_devices := [(1, some ⟨"game.controller.default", 1, 0⟩),
                  (3, some ⟨"game.controller.snes", 1, 2⟩),
                  (5, none),
                  (7, some ⟨"game.controller.lightgun", 4, 1⟩),
                  (4294967294, some ⟨"game.controller.default", 1, 0⟩)],
    m_mouseDevice := ⟨"game.controller.mouse", 2, 3⟩,
    m_pressedKeys := [⟨true, 97, 0⟩] }

/-- An environment with both the frontend and the client bridge attached. -/
def sampleEnvironment : CLibretroEnvironment := { frontend := true, clientBridge := true }

/-- A key event (a press of the character 98) whose port field is the mouse port. -/
def sampleKeyEvent : game_input_event Nat :=
  { type := 4, port := -2, key := ⟨true, 98, 1⟩, payload := 0 }

/-- A button event addressed to the mouse port. -/
def sampleMouseEvent : game_input_event Nat :=
  { type := 0, port := -2, key := ⟨false, 0, 0⟩, payload := 1 }

/-- A button event addressed to port 3, which holds a device. -/
def samplePortEvent : game_input_event Nat :=
  { type := 0, port := 3, key := ⟨false, 0, 0⟩, payload := 1 }

/-! ## The invariant of the device map -/

/-- The invariant of `std::map`: the ports of the entries are strictly ascending, so no
port has two entries. -/
def keysAscending {P : Platform} (m : DeviceMap P) : Prop :=
  (m.map Prod.fst).Pairwise (fun a b => a < b)

instance {P : Platform} (m : DeviceMap P) : Decidable (keysAscending m) :=
  inferInstanceAs (Decidable ((m.map Prod.fst).Pairwise (fun a b => a < b)))

/-- The manager after a sequence of key events, each recorded by `HandlePress`. -/
def handleAll {P : Platform} (s : CInputManager P) (events : List game_key_event) :
    CInputManager P :=
  events.foldl CInputManager.HandlePress s

/-- The number of entries of `m_pressedKeys` that carry the character. -/
def entriesOf {P : Platform} (s : CInputManager P) (character : Nat) : Nat :=
  s.m_pressedKeys.countP (fun keyEvent => decide (keyEvent.character = character))

/-- Whether every press of the sequence is of a character that `IsPressed` reports as not
pressed at the moment the press arrives. -/
def pressesFresh {P : Platform} : CInputManager P → List game_key_event → Bool
  | _, [] => true
  | s, key :: events =>
    (!key.pressed || !CInputManager.IsPressed s key.character) &&
      pressesFresh (CInputManager.HandlePress s key) events

/-! ## The device map -/

section DeviceMapLemmas

variable {P : Platform}

theorem mapFind_mapAssign_same (m : DeviceMap P) (port : Nat) (ptr : Option P.Device) :
    mapFind (mapAssign m port ptr) port = some ptr := by
  induction m with
  | nil => simp [mapAssign, mapFind]
  | cons e rest ih =>
    obtain ⟨k, x⟩ := e
    unfold mapAssign
    split
    · simp [mapFind]
    · split
      · simp_all [mapFind]
      · rename_i h1 h2
        have hk : k ≠ port := fun h => h2 h.symm
        simp [mapFind, hk, ih]

theorem mapFind_mapAssign_other (m : DeviceMap P) (port q : Nat) (ptr : Option P.Device)
    (hq : q ≠ port) : mapFind (mapAssign m port ptr) q = mapFind m q := by
  induction m with
  | nil => simp [mapAssign, mapFind, Ne.symm hq]
  | cons e rest ih =>
    obtain ⟨k, x⟩ := e
    unfold mapAssign
    split
    · simp [mapFind, Ne.symm hq]
    · split
      · rename_i h1 h2
        subst h2
        simp [mapFind, Ne.symm hq]
      · simp [mapFind, ih]

theorem mapGet_mapAssign_same (m : DeviceMap P) (port : Nat) (ptr : Option P.Device) :
    mapGet (mapAssign m port ptr) port = ptr := by
  simp [mapGet, mapFind_mapAssign_same]

theorem mapGet_mapAssign_other (m : DeviceMap P) (port q : Nat) (ptr : Option P.Device)
    (hq : q ≠ port) : mapGet (mapAssign m port ptr) q = mapGet m q := by
  simp [mapGet, mapFind_mapAssign_other m port q ptr hq]

/-- Evaluating `m_devices[port]` changes the pointer found at no port. -/
theorem mapGet_mapIndex (m : DeviceMap P) (port q : Nat) :
    mapGet (mapIndex m port) q = mapGet m q := by
  unfold mapIndex
  split
  · rfl
  · rename_i h
    by_cases hq : q = port
    · subst hq
      rw [mapGet_mapAssign_same]
      simp [mapGet, h]
    · exact mapGet_mapAssign_other m port q none hq

/-- A second assignment to a port overwrites the first. -/
theorem mapAssign_mapAssign (m : DeviceMap P) (port : Nat) (a b : Option P.Device) :
    mapAssign (mapAssign m port a) port b = mapAssign m port b := by
  induction m with
  | nil => simp [mapAssign]
  | cons e rest ih =>
    obtain ⟨k, x⟩ := e
    by_cases h1 : port < k
    · simp [mapAssign, h1]
    · by_cases h2 : port = k
      · subst h2
        simp [mapAssign]
      · simp [mapAssign, h1, h2, ih]

theorem GetPort_ret (s : CInputManager P) (port : Nat) :
    (CInputManager.GetPort s port).ret = mapGet s.m_devices port := by
  simp [CInputManager.GetPort, mapGet_mapIndex]

theorem GetPort_ret_of_map_eq (s t : CInputManager P) (port : Nat)
    (h : mapGet t.m_devices port = mapGet s.m_devices port) :
    (CInputManager.GetPort t port).ret = (CInputManager.GetPort s port).ret := by
  rw [GetPort_ret, GetPort_ret, h]

end DeviceMapLemmas

/-! ## Event routing -/

section Routing

variable {P : Platform}

open CInputManager

/-- C1: a key event, whatever its port field holds, invokes the input handler of no device;
the mouse device and the whole port table are the same after `InputEvent` as before, so only
the pressed keys and the notification of the bridge are affected. -/
theorem InputEvent_key_reaches_no_device (env : CLibretroEnvironment) (s : CInputManager P)
    (event : game_input_event P.Payload) (hkey : event.type = P.GAME_INPUT_EVENT_KEY) :
    (∀ c ∈ (InputEvent env s event).calls, c.isInputHandler = false) ∧
    (InputEvent env s event).state.m_mouseDevice = s.m_mouseDevice ∧
    (InputEvent env s event).state.m_devices = s.m_devices ∧
    (∀ port, (GetPort (InputEvent env s event).state port).ret = (GetPort s port).ret) := by
  have hs : (InputEvent env s event).state = HandlePress s event.key := by
    simp [InputEvent, hkey]
  refine ⟨?_, ?_, ?_, ?_⟩
  · intro c hc
    cases hb : env.clientBridge <;> simp [InputEvent, hkey, hb] at hc
    subst hc
    rfl
  · rw [hs]; rfl
  · rw [hs]; rfl
  · intro port
    rw [hs]; rfl

/-- C1 at a key event whose port field is the mouse port, in a manager holding devices. -/
theorem InputEvent_key_reaches_no_device_witness :
    sampleKeyEvent.type = samplePlatform.GAME_INPUT_EVENT_KEY ∧
    ((∀ c ∈ (InputEvent sampleEnvironment sampleManager sampleKeyEvent).calls,
        c.isInputHandler = false) ∧
      (InputEvent sampleEnvironment sampleManager sampleKeyEvent).state.m_mouseDevice
        = sampleManager.m_mouseDevice ∧
      (InputEvent sampleEnvironment sampleManager sampleKeyEvent).state.m_devices
        = sampleManager.m_devices ∧
      (∀ port, (GetPort (InputEvent sampleEnvironment sampleManager sampleKeyEvent).state
        port).ret = (GetPort sampleManager port).ret)) :=
  ⟨rfl, InputEvent_key_reaches_no_device sampleEnvironment sampleManager sampleKeyEvent rfl⟩

/-- C2: a key event is handled: `InputEvent` returns true, the manager afterwards is the one
`HandlePress` produces (a press appended, a release erasing the entries of the character),
and the bridge receives the one call `KeyboardEvent(pressed, keycode, character, modifiers)`
when it is attached and no call at all when it is not. -/
theorem InputEvent_key_handled (env : CLibretroEnvironment) (s : CInputManager P)
    (event : game_input_event P.Payload) (hkey : event.type = P.GAME_INPUT_EVENT_KEY) :
    (InputEvent env s event).ret = true ∧
    (InputEvent env s event).state = HandlePress s event.key ∧
    (InputEvent env s event).state.m_pressedKeys =
      (if event.key.pressed then s.m_pressedKeys ++ [event.key]
       else s.m_pressedKeys.filter (fun k => !decide (k.character = event.key.character))) ∧
    (env.clientBridge = true → (InputEvent env s event).calls =
      [Call.KeyboardEvent event.key.pressed (P.GetKeyCode event.key.character)
        event.key.character (P.GetKeyModifiers event.key.modifiers)]) ∧
    (env.clientBridge = false → (InputEvent env s event).calls = []) := by
  refine ⟨?_, ?_, ?_, ?_, ?_⟩
  · simp [InputEvent, hkey]
  · simp [InputEvent, hkey]
  · simp [InputEvent, hkey, HandlePress, pressedAfter]
  · intro hb
    simp [InputEvent, hkey, hb]
  · intro hb
    simp [InputEvent, hkey, hb]

/-- C2 at a press of the character 98 with the bridge attached. -/
theorem InputEvent_key_handled_witness :
    sampleKeyEvent.type = samplePlatform.GAME_INPUT_EVENT_KEY ∧
    (InputEvent sampleEnvironment sampleManager sampleKeyEvent).ret = true ∧
    (InputEvent sampleEnvironment sampleManager sampleKeyEvent).state.m_pressedKeys
      = [⟨true, 97, 0⟩, ⟨true, 98, 1⟩] ∧
    (InputEvent sampleEnvironment sampleManager sampleKeyEvent).calls
      = [Call.KeyboardEvent true 98 98 1] :=
  ⟨rfl,
   (InputEvent_key_handled sampleEnvironment sampleManager sampleKeyEvent rfl).1,
   (InputEvent_key_handled sampleEnvironment sampleManager sampleKeyEvent rfl).2.2.1,
   (InputEvent_key_handled sampleEnvironment sampleManager sampleKeyEvent rfl).2.2.2.1 rfl⟩

/-- C3: an event that is not a key event and whose port is the mouse port goes to the input
handler of the mouse device, and `InputEvent` returns the result of that handler; the port
table is not touched and the handler of no device of the table is invoked, whatever the
table holds under the unsigned value of the mouse port. -/
theorem InputEvent_mouse_exclusive (env : CLibretroEnvironment) (s : CInputManager P)
    (event : game_input_event P.Payload) (hkey : event.type ≠ P.GAME_INPUT_EVENT_KEY)
    (hport : event.port = P.GAME_INPUT_PORT_MOUSE) :
    (InputEvent env s event).ret = (P.InputEvent event s.m_mouseDevice).1 ∧
    (InputEvent env s event).calls = [Call.MouseInput event] ∧
    (InputEvent env s event).state.m_mouseDevice = (P.InputEvent event s.m_mouseDevice).2 ∧
    (InputEvent env s event).state.m_devices = s.m_devices ∧
    (InputEvent env s event).state.m_pressedKeys = s.m_pressedKeys := by
  simp [InputEvent, hkey, hport]

/-- C3 in a manager whose port table holds a device under the unsigned value of the mouse
port: that device is left as it is and the mouse device takes the event. -/
theorem InputEvent_mouse_exclusive_witness :
    sampleMouseEvent.type ≠ samplePlatform.GAME_INPUT_EVENT_KEY ∧
    sampleMouseEvent.port = samplePlatform.GAME_INPUT_PORT_MOUSE ∧
    (GetPort sampleManager (toUnsigned sampleMouseEvent.port)).ret
      = some ⟨"game.controller.default", 1, 0⟩ ∧
    (InputEvent sampleEnvironment sampleManager sampleMouseEvent).ret = true ∧
    (InputEvent sampleEnvironment sampleManager sampleMouseEvent).calls
      = [Call.MouseInput sampleMouseEvent] ∧
    (InputEvent sampleEnvironment sampleManager sampleMouseEvent).state.m_mouseDevice
      = ⟨"game.controller.mouse", 2, 4⟩ ∧
    (InputEvent sampleEnvironment sampleManager sampleMouseEvent).state.m_devices
      = sampleManager.m_devices :=
  ⟨by decide, rfl, by decide,
   (InputEvent_mouse_exclusive sampleEnvironment sampleManager sampleMouseEvent
      (by decide) rfl).1,
   (InputEvent_mouse_exclusive sampleEnvironment sampleManager sampleMouseEvent
      (by decide) rfl).2.1,
   (InputEvent_mouse_exclusive sampleEnvironment sampleManager sampleMouseEvent
      (by decide) rfl).2.2.1,
   (InputEvent_mouse_exclusive sampleEnvironment sampleManager sampleMouseEvent
      (by decide) rfl).2.2.2.1⟩

end Routing

section PortRouting

variable {P : Platform}

open CInputManager

/-- C4: an event that is not a key event and whose port is not the mouse port: when the
port table holds a device at the port, `InputEvent` returns what the input handler of that
device returns for the event; when the port holds no device, `InputEvent` returns false,
invokes no handler, and leaves the mouse device, the pressed keys and the pointer found at
every port as they were. -/
theorem InputEvent_port_routing (env : CLibretroEnvironment) (s : CInputManager P)
    (event : game_input_event P.Payload) (hkey : event.type ≠ P.GAME_INPUT_EVENT_KEY)
    (hport : event.port ≠ P.GAME_INPUT_PORT_MOUSE) :
    (∀ dev, (GetPort s (toUnsigned event.port)).ret = some dev →
      (InputEvent env s event).ret = (P.InputEvent event dev).1 ∧
      (InputEvent env s event).calls = [Call.DeviceInput (toUnsigned event.port) event]) ∧
    ((GetPort s (toUnsigned event.port)).ret = none →
      (InputEvent env s event).ret = false ∧
      (InputEvent env s event).calls = [] ∧
      (InputEvent env s event).state.m_mouseDevice = s.m_mouseDevice ∧
      (InputEvent env s event).state.m_pressedKeys = s.m_pressedKeys ∧
      (∀ q, (GetPort (InputEvent env s event).state q).ret = (GetPort s q).ret)) := by
  constructor
  · intro dev hdev
    rw [GetPort_ret] at hdev
    simp [InputEvent, hkey, hport, mapGet_mapIndex, hdev]
  · intro hnone
    rw [GetPort_ret] at hnone
    refine ⟨?_, ?_, ?_, ?_, ?_⟩
    · simp [InputEvent, hkey, hport, mapGet_mapIndex, hnone]
    · simp [InputEvent, hkey, hport, mapGet_mapIndex, hnone]
    · simp [InputEvent, hkey, hport, mapGet_mapIndex, hnone]
    · simp [InputEvent, hkey, hport, mapGet_mapIndex, hnone]
    · intro q
      apply GetPort_ret_of_map_eq
      simp [InputEvent, hkey, hport, mapGet_mapIndex, hnone]

/-- C4 at a button event for port 3, which holds a device, and the same event sent to
port 9, which has no entry. -/
theorem InputEvent_port_routing_witness :
    samplePortEvent.type ≠ samplePlatform.GAME_INPUT_EVENT_KEY ∧
    samplePortEvent.port ≠ samplePlatform.GAME_INPUT_PORT_MOUSE ∧
    (GetPort sampleManager (toUnsigned samplePortEvent.port)).ret
      = some ⟨"game.controller.snes", 1, 2⟩ ∧
    (InputEvent sampleEnvironment sampleManager samplePortEvent).ret = true ∧
    (InputEvent sampleEnvironment sampleManager samplePortEvent).calls
      = [Call.DeviceInput 3 samplePortEvent] ∧
    (GetPort sampleManager 9).ret = none ∧
    (InputEvent sampleEnvironment sampleManager { samplePortEvent with port := 9 }).ret
      = false :=
  ⟨by decide, by decide, by decide,
   ((InputEvent_port_routing sampleEnvironment sampleManager samplePortEvent
      (by decide) (by decide)).1 ⟨"game.controller.snes", 1, 2⟩ (by decide)).1,
   ((InputEvent_port_routing sampleEnvironment sampleManager samplePortEvent
      (by decide) (by decide)).1 ⟨"game.controller.snes", 1, 2⟩ (by decide)).2,
   by decide,
   ((InputEvent_port_routing sampleEnvironment sampleManager
      { samplePortEvent with port := 9 } (by decide) (by decide)).2 (by decide)).1⟩

end PortRouting

/-! ## Polling a port that holds no device -/

section Polling

variable {P : Platform}

open CInputManager

/-- C5, as the claim states it, fails: port 0 of the sample manager holds no device, yet
the keyboard tag reports the held key 97 as pressed and the mouse tag reports the pointer
delta of the mouse device. -/
theorem polling_empty_port_counterexample :
    (GetPort sampleManager 0).ret = none ∧
    (ButtonState sampleManager samplePlatform.RETRO_DEVICE_KEYBOARD 0 97).ret = true ∧
    (ButtonState sampleManager samplePlatform.RETRO_DEVICE_MOUSE 0 0).ret = true ∧
    (DeltaX sampleManager samplePlatform.RETRO_DEVICE_MOUSE 0).ret = 3 ∧
    (DeltaY sampleManager samplePlatform.RETRO_DEVICE_MOUSE 0).ret = 3 := by
  refine ⟨by decide, by decide, by decide, by decide, by decide⟩

/-- C5, amended: at a port that holds no device, `ButtonState` returns false for every tag
other than keyboard and mouse, `DeltaX` returns 0 for every tag other than mouse, `DeltaY`
returns 0 for every tag other than mouse and lightgun, the analog stick, absolute pointer
and accelerometer accessors return false and leave the coordinates as they were, and
`ControllerID` returns the empty string. -/
theorem polling_empty_port (s : CInputManager P) (p : Nat)
    (hempty : (GetPort s p).ret = none) :
    (∀ device i, device ≠ P.RETRO_DEVICE_KEYBOARD → device ≠ P.RETRO_DEVICE_MOUSE →
      (ButtonState s device p i).ret = false) ∧
    (∀ device, device ≠ P.RETRO_DEVICE_MOUSE → (DeltaX s device p).ret = 0) ∧
    (∀ device, device ≠ P.RETRO_DEVICE_MOUSE → device ≠ P.RETRO_DEVICE_LIGHTGUN →
      (DeltaY s device p).ret = 0) ∧
    (∀ i x y, (AnalogStickState s p i x y).ret = (false, x, y)) ∧
    (∀ i x y, (AbsolutePointerState s p i x y).ret = (false, x, y)) ∧
    (∀ x y z, (AccelerometerState s p x y z).ret = (false, x, y, z)) ∧
    (ControllerID s p).ret = "" := by
  rw [GetPort_ret] at hempty
  refine ⟨?_, ?_, ?_, ?_, ?_, ?_, ?_⟩
  · intro device i hk hm
    simp [ButtonState, hk, hm, mapGet_mapIndex, hempty]
  · intro device hm
    by_cases hl : device = P.RETRO_DEVICE_LIGHTGUN
    · unfold DeltaX
      rw [if_neg hm, if_pos hl]
      simp [mapGet_mapIndex, hempty]
    · simp [DeltaX, hm, hl]
  · intro device hm hl
    simp [DeltaY, hm, hl]
  · intro i x y
    simp [AnalogStickState, mapGet_mapIndex, hempty]
  · intro i x y
    simp [AbsolutePointerState, mapGet_mapIndex, hempty]
  · intro x y z
    simp [AccelerometerState, mapGet_mapIndex, hempty]
  · simp [ControllerID, mapGet_mapIndex, hempty]

/-- C5, amended, at port 0 of the sample manager with the joypad and lightgun tags. -/
theorem polling_empty_port_witness :
    (GetPort sampleManager 0).ret = none ∧
    (ButtonState sampleManager samplePlatform.RETRO_DEVICE_JOYPAD 0 97).ret = false ∧
    (DeltaX sampleManager samplePlatform.RETRO_DEVICE_LIGHTGUN 0).ret = 0 ∧
    (DeltaY sampleManager samplePlatform.RETRO_DEVICE_JOYPAD 0).ret = 0 ∧
    (AnalogStickState sampleManager 0 1 5 6).ret = (false, 5, 6) ∧
    (ControllerID sampleManager 0).ret = "" :=
  ⟨by decide,
   (polling_empty_port sampleManager 0 (by decide)).1 1 97 (by decide) (by decide),
   (polling_empty_port sampleManager 0 (by decide)).2.1 4 (by decide),
   (polling_empty_port sampleManager 0 (by decide)).2.2.1 1 (by decide) (by decide),
   (polling_empty_port sampleManager 0 (by decide)).2.2.2.1 1 5 6,
   (polling_empty_port sampleManager 0 (by decide)).2.2.2.2.2.2⟩

end Polling

/-! ## Connecting, disconnecting and closing ports -/

section Lifecycle

variable {P : Platform}

open CInputManager

theorem GetDevice_ret_of_none (s : CInputManager P) (port : Nat)
    (h : mapGet s.m_devices port = none) : (GetDevice s port).ret = 0 := by
  simp [GetDevice, mapGet_mapIndex, h]

theorem GetDevice_ret_of_some (s : CInputManager P) (port : Nat) (dev : P.Device)
    (h : mapGet s.m_devices port = some dev) : (GetDevice s port).ret = P.Type_ dev := by
  simp [GetDevice, mapGet_mapIndex, h]

theorem ControllerID_ret_of_some (s : CInputManager P) (port : Nat) (dev : P.Device)
    (h : mapGet s.m_devices port = some dev) :
    (ControllerID s port).ret = P.ControllerID dev := by
  simp [ControllerID, mapGet_mapIndex, h]

/-- A port that is not among the collected ports holds no device. -/
theorem mapGet_of_not_occupied (m : DeviceMap P) (q : Nat) (hq : q ∉ occupiedPorts m) :
    mapGet m q = none := by
  induction m with
  | nil => rfl
  | cons e rest ih =>
    obtain ⟨k, x⟩ := e
    cases x with
    | none =>
      have hrest : q ∉ occupiedPorts rest := by
        simpa [occupiedPorts, List.filterMap_cons] using hq
      have := ih hrest
      by_cases hk : k = q
      · simp [mapGet, mapFind, hk]
      · simp only [mapGet, mapFind, hk, if_false] at this ⊢
        exact this
    | some d =>
      have hq2 : q ≠ k ∧ q ∉ occupiedPorts rest := by
        simpa [occupiedPorts, List.filterMap_cons, not_or] using hq
      have := ih hq2.2
      have hk : k ≠ q := fun h => hq2.1 h.symm
      simp only [mapGet, mapFind, hk, if_false] at this ⊢
      exact this

/-- The pointer found at a port after the second loop of `ClosePorts`. -/
theorem closeEach_mapGet (env : CLibretroEnvironment) (ports : List Nat)
    (s : CInputManager P) (q : Nat) :
    mapGet (closeEach env s ports).state.m_devices q =
      if q ∈ ports then none else mapGet s.m_devices q := by
  induction ports generalizing s with
  | nil => simp [closeEach]
  | cons port rest ih =>
    simp only [closeEach]
    rw [ih]
    by_cases hq : q = port
    · subst hq
      simp [ClosePort, mapGet_mapAssign_same]
    · by_cases hr : q ∈ rest
      · simp [hr]
      · simp [hr, hq, ClosePort, mapGet_mapAssign_other _ _ _ _ hq]

/-- The notifications sent by the second loop of `ClosePorts`. -/
theorem closeEach_calls (env : CLibretroEnvironment) (ports : List Nat)
    (s : CInputManager P) :
    (closeEach env s ports).calls =
      if env.frontend then ports.map Call.ClosePort else [] := by
  induction ports generalizing s with
  | nil => simp [closeEach]
  | cons port rest ih =>
    simp only [closeEach]
    rw [ih]
    cases hf : env.frontend <;> simp [ClosePort, hf]

/-- C6: after `DeviceConnected(p, true, d)` the pointer `GetPort(p)` is the device made
from `d`, with the controller id and the type of that device, whatever the port held
before; connecting `d1` and then `d2` leaves the device made from `d2`, and the manager is
the one that connecting `d2` alone produces. -/
theorem DeviceConnected_last_write_wins (s : CInputManager P) (p : Nat)
    (d d1 d2 : P.Controller) :
    (GetPort (DeviceConnected s p true d).state p).ret = some (P.make_shared d) ∧
    (ControllerID (DeviceConnected s p true d).state p).ret
      = P.ControllerID (P.make_shared d) ∧
    (GetDevice (DeviceConnected s p true d).state p).ret = P.Type_ (P.make_shared d) ∧
    (GetPort (DeviceConnected (DeviceConnected s p true d1).state p true d2).state p).ret
      = some (P.make_shared d2) ∧
    (DeviceConnected (DeviceConnected s p true d1).state p true d2).state
      = (DeviceConnected s p true d2).state := by
  have h : ∀ (t : CInputManager P) (c : P.Controller),
      mapGet (DeviceConnected t p true c).state.m_devices p = some (P.make_shared c) := by
    intro t c
    simp [DeviceConnected, mapGet_mapAssign_same]
  refine ⟨?_, ?_, ?_, ?_, ?_⟩
  · rw [GetPort_ret, h]
  · exact ControllerID_ret_of_some _ _ _ (h s d)
  · exact GetDevice_ret_of_some _ _ _ (h s d)
  · rw [GetPort_ret, h]
  · simp [DeviceConnected, mapAssign_mapAssign]

/-- C7: after `DeviceConnected(p, false, _)` the port `p` holds no device; when `p` held
none before, the pointer found at every port, the mouse device and the pressed keys are
unchanged; and a second disconnect of `p` leaves the manager as the first left it. -/
theorem DeviceConnected_disconnect (s : CInputManager P) (p : Nat)
    (d d2 : P.Controller) :
    (GetPort (DeviceConnected s p false d).state p).ret = none ∧
    ((GetPort s p).ret = none →
      (∀ q, (GetPort (DeviceConnected s p false d).state q).ret = (GetPort s q).ret) ∧
      (DeviceConnected s p false d).state.m_mouseDevice = s.m_mouseDevice ∧
      (DeviceConnected s p false d).state.m_pressedKeys = s.m_pressedKeys ∧
      (DeviceConnected s p false d).calls = []) ∧
    (DeviceConnected (DeviceConnected s p false d).state p false d2).state
      = (DeviceConnected s p false d).state := by
  refine ⟨?_, ?_, ?_⟩
  · rw [GetPort_ret]
    simp [DeviceConnected, mapGet_mapAssign_same]
  · intro hempty
    rw [GetPort_ret] at hempty
    refine ⟨?_, ?_, ?_, ?_⟩
    · intro q
      apply GetPort_ret_of_map_eq
      by_cases hq : q = p
      · subst hq
        simp [DeviceConnected, mapGet_mapAssign_same, hempty]
      · simp [DeviceConnected, mapGet_mapAssign_other _ _ _ _ hq]
    · simp [DeviceConnected]
    · simp [DeviceConnected]
    · simp [DeviceConnected]
  · simp [DeviceConnected, mapAssign_mapAssign]

/-- C7 at port 9 of the sample manager, which holds no device, and at port 3, which
holds one. -/
theorem DeviceConnected_disconnect_witness :
    (GetPort sampleManager 9).ret = none ∧
    (∀ q, (GetPort (DeviceConnected sampleManager 9 false ("", 0)).state q).ret
      = (GetPort sampleManager q).ret) ∧
    (GetPort sampleManager 3).ret ≠ none ∧
    (GetPort (DeviceConnected sampleManager 3 false ("", 0)).state 3).ret = none :=
  ⟨by decide,
   ((DeviceConnected_disconnect sampleManager 9 ("", 0) ("", 0)).2.1 (by decide)).1,
   by decide,
   (DeviceConnected_disconnect sampleManager 3 ("", 0) ("", 0)).1⟩

/-- C8: after `ClosePorts` every port holds no device, `GetPort` returning a null pointer
and `GetDevice` returning 0, with a frontend attached or without one; the ports closed are
the ports that held a device when `ClosePorts` was entered, each notified once and in map
order when a frontend is attached. -/
theorem ClosePorts_complete (env : CLibretroEnvironment) (s : CInputManager P) :
    (∀ p, (GetPort (ClosePorts env s).state p).ret = none ∧
      (GetDevice (ClosePorts env s).state p).ret = 0) ∧
    (ClosePorts env s).calls =
      (if env.frontend then (occupiedPorts s.m_devices).map Call.ClosePort else []) ∧
    (ClosePorts env s).state.m_mouseDevice = s.m_mouseDevice ∧
    (ClosePorts env s).state.m_pressedKeys = s.m_pressedKeys := by
  have hnone : ∀ p, mapGet (ClosePorts env s).state.m_devices p = none := by
    intro p
    unfold ClosePorts
    rw [closeEach_mapGet]
    split
    · rfl
    · rename_i h
      exact mapGet_of_not_occupied _ _ h
  have hframe : ∀ (ports : List Nat) (t : CInputManager P),
      (closeEach env t ports).state.m_mouseDevice = t.m_mouseDevice ∧
      (closeEach env t ports).state.m_pressedKeys = t.m_pressedKeys := by
    intro ports
    induction ports with
    | nil => intro t; simp [closeEach]
    | cons port rest ih =>
      intro t
      simp only [closeEach]
      rw [(ih _).1, (ih _).2]
      simp [ClosePort]
  refine ⟨?_, ?_, ?_, ?_⟩
  · intro p
    exact ⟨by rw [GetPort_ret, hnone], GetDevice_ret_of_none _ _ (hnone p)⟩
  · exact closeEach_calls env _ s
  · exact (hframe _ s).1
  · exact (hframe _ s).2

end Lifecycle

/-! ## The pressed keys -/

section PressedKeys

variable {P : Platform}

open CInputManager

theorem IsPressed_eq_entriesOf (s : CInputManager P) (c : Nat) :
    IsPressed s c = decide (0 < entriesOf s c) := by
  simp [IsPressed, isPressedIn, entriesOf]

theorem entriesOf_press (s : CInputManager P) (key : game_key_event) (c : Nat)
    (hp : key.pressed = true) :
    entriesOf (HandlePress s key) c = entriesOf s c + (if key.character = c then 1 else 0) := by
  simp [entriesOf, HandlePress, pressedAfter, hp, List.countP_append, List.countP_cons]

theorem entriesOf_release_le (s : CInputManager P) (key : game_key_event) (c : Nat)
    (hp : key.pressed = false) : entriesOf (HandlePress s key) c ≤ entriesOf s c := by
  simp only [entriesOf, HandlePress, pressedAfter, hp]
  exact List.Sublist.countP_le _ (List.filter_sublist _)

theorem entriesOf_release_same (s : CInputManager P) (key : game_key_event)
    (hp : key.pressed = false) : entriesOf (HandlePress s key) key.character = 0 := by
  simp [entriesOf, HandlePress, pressedAfter, hp, List.countP_eq_zero]

/-- C9: after a press of `c`, `IsPressed(c)` is true; after a release of `c` that follows
it, `IsPressed(c)` is false; and a release of a character that is not pressed leaves the
manager, its pressed keys included, as it was, with `IsPressed(c)` still false. -/
theorem key_round_trip (s : CInputManager P) (c m1 m2 : Nat) :
    IsPressed (HandlePress s ⟨true, c, m1⟩) c = true ∧
    IsPressed (HandlePress (HandlePress s ⟨true, c, m1⟩) ⟨false, c, m2⟩) c = false ∧
    (IsPressed s c = false →
      HandlePress s ⟨false, c, m2⟩ = s ∧
      IsPressed (HandlePress s ⟨false, c, m2⟩) c = false) := by
  refine ⟨?_, ?_, ?_⟩
  · rw [IsPressed_eq_entriesOf, entriesOf_press _ _ _ rfl]
    simp
  · rw [IsPressed_eq_entriesOf]
    have h := entriesOf_release_same (HandlePress s ⟨true, c, m1⟩) ⟨false, c, m2⟩ rfl
    simp only at h
    simp [h]
  · intro hnot
    have h0 : ∀ k ∈ s.m_pressedKeys, ¬ k.character = c := by
      simpa [IsPressed, isPressedIn, List.countP_eq_zero] using hnot
    have hs : HandlePress s ⟨false, c, m2⟩ = s := by
      cases s with
      | mk devices mouse keys =>
        simp only [HandlePress, pressedAfter]
        congr 1
        simp only [Bool.false_eq_true, if_false]
        rw [List.filter_eq_self]
        intro k hk
        simpa using h0 k hk
    exact ⟨hs, by rw [hs]; exact hnot⟩

/-- C9 for the character 98, which the sample manager does not hold pressed. -/
theorem key_round_trip_witness :
    IsPressed sampleManager 98 = false ∧
    HandlePress sampleManager ⟨false, 98, 0⟩ = sampleManager ∧
    IsPressed (HandlePress sampleManager ⟨false, 98, 0⟩) 98 = false :=
  ⟨by decide,
   ((key_round_trip sampleManager 98 0 0).2.2 (by decide)).1,
   ((key_round_trip sampleManager 98 0 0).2.2 (by decide)).2⟩

/-- C10, as the claim states it, fails: two presses of the character 97 in a row, starting
from the manager as constructed, leave two entries for 97. -/
theorem pressed_keys_unique_counterexample :
    entriesOf (handleAll (CInputManager.new samplePlatform) [⟨true, 97, 0⟩, ⟨true, 97, 0⟩]) 97
      = 2 := by
  decide

/-- C10, amended: in every state reached from the manager as constructed by key events of
which no press is of a character that is pressed when it arrives, every character has at
most one entry; a press adds one entry for its character whatever the collection holds. -/
theorem pressed_keys_unique (events : List game_key_event)
    (hfresh : pressesFresh (CInputManager.new P) events = true) :
    (∀ c, entriesOf (handleAll (CInputManager.new P) events) c ≤ 1) ∧
    (∀ (s : CInputManager P) (c m : Nat),
      entriesOf (HandlePress s ⟨true, c, m⟩) c = entriesOf s c + 1) := by
  have step : ∀ (evs : List game_key_event) (s : CInputManager P),
      (∀ c, entriesOf s c ≤ 1) → pressesFresh s evs = true →
      ∀ c, entriesOf (handleAll s evs) c ≤ 1 := by
    intro evs
    induction evs with
    | nil => intro s hs _ c; exact hs c
    | cons key rest ih =>
      intro s hs hf c
      simp only [pressesFresh, Bool.and_eq_true, Bool.or_eq_true, Bool.not_eq_true'] at hf
      have hnext : ∀ c, entriesOf (HandlePress s key) c ≤ 1 := by
        intro c
        cases hp : key.pressed with
        | false => exact le_trans (entriesOf_release_le s key c hp) (hs c)
        | true =>
          rw [entriesOf_press s key c hp]
          by_cases hc : key.character = c
          · have hz : entriesOf s c = 0 := by
              rcases hf.1 with h | h
              · rw [hp] at h; exact absurd h (by decide)
              · rw [IsPressed_eq_entriesOf, hc] at h
                simpa using h
            simp [hc, hz]
          · simpa [hc] using hs c
      exact ih (HandlePress s key) hnext hf.2 c
  refine ⟨step events _ ?_ hfresh, ?_⟩
  · intro c
    simp [entriesOf, CInputManager.new]
  · intro s c m
    rw [entriesOf_press _ _ _ rfl]
    simp

/-- C10, amended, at the sequence press 97, press 98, release 97, press 97. -/
theorem pressed_keys_unique_witness :
    pressesFresh (CInputManager.new samplePlatform)
      [⟨true, 97, 0⟩, ⟨true, 98, 0⟩, ⟨false, 97, 0⟩, ⟨true, 97, 0⟩] = true ∧
    (∀ c, entriesOf (handleAll (CInputManager.new samplePlatform)
      [⟨true, 97, 0⟩, ⟨true, 98, 0⟩, ⟨false, 97, 0⟩, ⟨true, 97, 0⟩]) c ≤ 1) :=
  ⟨by decide,
   (pressed_keys_unique
      [⟨true, 97, 0⟩, ⟨true, 98, 0⟩, ⟨false, 97, 0⟩, ⟨true, 97, 0⟩] (by decide)).1⟩

end PressedKeys

/-! ## Release, dispatch of the polls, capabilities -/

section Dispatch

variable {P : Platform}

open CInputManager

/-- C11: a release of `c` erases every entry of `c`, however many the collection holds, so
after one release no entry of `c` remains and `IsPressed(c)` is false; and `IsPressed(c)` is
true exactly when the collection holds an entry whose character is `c`. -/
theorem release_removes_all (s : CInputManager P) (c m : Nat) :
    entriesOf (HandlePress s ⟨false, c, m⟩) c = 0 ∧
    (¬ ∃ k ∈ (HandlePress s ⟨false, c, m⟩).m_pressedKeys, k.character = c) ∧
    IsPressed (HandlePress s ⟨false, c, m⟩) c = false ∧
    (IsPressed s c = true ↔ ∃ k ∈ s.m_pressedKeys, k.character = c) := by
  have h0 : entriesOf (HandlePress s ⟨false, c, m⟩) c = 0 :=
    entriesOf_release_same s ⟨false, c, m⟩ rfl
  refine ⟨h0, ?_, ?_, ?_⟩
  · rintro ⟨k, hk, hc⟩
    have hall : ∀ a ∈ (HandlePress s ⟨false, c, m⟩).m_pressedKeys, ¬ a.character = c := by
      simpa [entriesOf, List.countP_eq_zero] using h0
    exact hall k hk hc
  · rw [IsPressed_eq_entriesOf, h0]
    rfl
  · rw [IsPressed_eq_entriesOf]
    simp [entriesOf, List.countP_pos_iff]

/-- C12: `ButtonState` reads one source, chosen by the tag: the keyboard tag gives
`IsPressed(i)` whatever the port and the table; the mouse tag, when it differs from the
keyboard tag, gives the button state of the mouse device whatever the port; every other tag
gives the button state of the occupant of the port, and false when the port holds none. -/
theorem ButtonState_dispatch (s : CInputManager P) (port i : Nat) :
    (ButtonState s P.RETRO_DEVICE_KEYBOARD port i).ret = IsPressed s i ∧
    (P.RETRO_DEVICE_MOUSE ≠ P.RETRO_DEVICE_KEYBOARD →
      (ButtonState s P.RETRO_DEVICE_MOUSE port i).ret
        = (P.ButtonState i s.m_mouseDevice).1) ∧
    (∀ device, device ≠ P.RETRO_DEVICE_KEYBOARD → device ≠ P.RETRO_DEVICE_MOUSE →
      (∀ dev, (GetPort s port).ret = some dev →
        (ButtonState s device port i).ret = (P.ButtonState i dev).1) ∧
      ((GetPort s port).ret = none → (ButtonState s device port i).ret = false)) := by
  refine ⟨?_, ?_, ?_⟩
  · simp [ButtonState]
  · intro hne
    simp [ButtonState, hne]
  · intro device hk hm
    constructor
    · intro dev hdev
      rw [GetPort_ret] at hdev
      simp [ButtonState, hk, hm, mapGet_mapIndex, hdev]
    · intro hnone
      rw [GetPort_ret] at hnone
      simp [ButtonState, hk, hm, mapGet_mapIndex, hnone]

/-- C12 on the sample manager: the keyboard tag at an empty port, the mouse tag at an
occupied port, and the joypad tag at an occupied and at an empty port. -/
theorem ButtonState_dispatch_witness :
    (ButtonState sampleManager samplePlatform.RETRO_DEVICE_KEYBOARD 0 97).ret = true ∧
    (ButtonState sampleManager samplePlatform.RETRO_DEVICE_MOUSE 3 2).ret = true ∧
    (ButtonState sampleManager samplePlatform.RETRO_DEVICE_JOYPAD 3 1).ret = true ∧
    (ButtonState sampleManager samplePlatform.RETRO_DEVICE_JOYPAD 9 1).ret = false :=
  ⟨(ButtonState_dispatch sampleManager 0 97).1,
   (ButtonState_dispatch sampleManager 3 2).2.1 (by decide),
   ((ButtonState_dispatch sampleManager 3 1).2.2 1 (by decide) (by decide)).1
      ⟨"game.controller.snes", 1, 2⟩ (by decide),
   ((ButtonState_dispatch sampleManager 9 1).2.2 1 (by decide) (by decide)).2 (by decide)⟩

/-- C13: `GetDeviceCaps` returns the same mask in every manager state; bit `n` of the mask
is set exactly when `n` is one of the six tags joypad, mouse, keyboard, lightgun, analog
and pointer; with the tags 1 to 6 the mask is 126. -/
theorem GetDeviceCaps_fixed (s t : CInputManager P) (n : Nat) :
    GetDeviceCaps s = GetDeviceCaps t ∧
    ((GetDeviceCaps s).testBit n = true ↔
      (n = P.RETRO_DEVICE_JOYPAD ∨ n = P.RETRO_DEVICE_MOUSE ∨ n = P.RETRO_DEVICE_KEYBOARD ∨
       n = P.RETRO_DEVICE_LIGHTGUN ∨ n = P.RETRO_DEVICE_ANALOG ∨
       n = P.RETRO_DEVICE_POINTER)) ∧
    GetDeviceCaps sampleManager = 126 ∧
    GetDeviceCaps (CInputManager.new samplePlatform) = 126 := by
  refine ⟨rfl, ?_, by decide, by decide⟩
  simp only [GetDeviceCaps, Nat.testBit_lor, Nat.one_shiftLeft, Nat.testBit_two_pow,
    Bool.or_eq_true, decide_eq_true_eq]
  omega

/-- C14: `GetDevice(p)` returns the type tag of the occupant when the port table holds a
device at `p`, and 0 when `p` holds none, an entry for `p` existing or not. -/
theorem GetDevice_sentinel (s : CInputManager P) (p : Nat) :
    (∀ dev, (GetPort s p).ret = some dev → (GetDevice s p).ret = P.Type_ dev) ∧
    ((GetPort s p).ret = none → (GetDevice s p).ret = 0) ∧
    (GetDevice (CInputManager.new P) p).ret = 0 := by
  refine ⟨?_, ?_, ?_⟩
  · intro dev hdev
    rw [GetPort_ret] at hdev
    exact GetDevice_ret_of_some s p dev hdev
  · intro hnone
    rw [GetPort_ret] at hnone
    exact GetDevice_ret_of_none s p hnone
  · exact GetDevice_ret_of_none _ p rfl

/-- C14 on the sample manager: port 7 holds a lightgun, port 5 has an entry holding a null
pointer, port 9 has no entry. -/
theorem GetDevice_sentinel_witness :
    (GetDevice sampleManager 7).ret = 4 ∧
    (GetDevice sampleManager 5).ret = 0 ∧
    (GetDevice sampleManager 9).ret = 0 :=
  ⟨(GetDevice_sentinel sampleManager 7).1 ⟨"game.controller.lightgun", 4, 1⟩ (by decide),
   (GetDevice_sentinel sampleManager 5).2.1 (by decide),
   (GetDevice_sentinel sampleManager 9).2.1 (by decide)⟩

/-- C15: `ClosePort(p)` leaves `p` holding no device, with a frontend attached and without
one; the frontend receives the one notification `ClosePort(p)` when it is attached, and
without a frontend no call is made; the function returns normally in both cases. -/
theorem ClosePort_best_effort (env : CLibretroEnvironment) (s : CInputManager P) (p : Nat) :
    (GetPort (ClosePort env s p).state p).ret = none ∧
    (GetDevice (ClosePort env s p).state p).ret = 0 ∧
    (env.frontend = true → (ClosePort env s p).calls = [Call.ClosePort p]) ∧
    (env.frontend = false → (ClosePort env s p).calls = []) := by
  have h : mapGet (ClosePort env s p).state.m_devices p = none := by
    simp [ClosePort, mapGet_mapAssign_same]
  refine ⟨?_, GetDevice_ret_of_none _ _ h, ?_, ?_⟩
  · rw [GetPort_ret, h]
  · intro hf
    simp [ClosePort, hf]
  · intro hf
    simp [ClosePort, hf]

/-- C15 at port 3 of the sample manager, with a frontend and without one. -/
theorem ClosePort_best_effort_witness :
    (ClosePort sampleEnvironment sampleManager 3).calls = [Call.ClosePort 3] ∧
    (ClosePort ⟨false, false⟩ sampleManager 3).calls = [] ∧
    (GetPort (ClosePort ⟨false, false⟩ sampleManager 3).state 3).ret = none :=
  ⟨(ClosePort_best_effort sampleEnvironment sampleManager 3).2.2.1 rfl,
   (ClosePort_best_effort ⟨false, false⟩ sampleManager 3).2.2.2 rfl,
   (ClosePort_best_effort ⟨false, false⟩ sampleManager 3).1⟩

/-- C16: `DeltaY` with the lightgun tag returns the relative pointer delta Y of the mouse
device, as with the mouse tag, and leaves the port table untouched, whatever the port; while
`DeltaX` with the lightgun tag, when it differs from the mouse tag, returns the relative
pointer delta X of the occupant of the port, and 0 when the port holds none. -/
theorem DeltaY_lightgun_reads_mouse (s : CInputManager P) (port : Nat) :
    (DeltaY s P.RETRO_DEVICE_LIGHTGUN port).ret = (P.RelativePointerDeltaY s.m_mouseDevice).1 ∧
    (DeltaY s P.RETRO_DEVICE_LIGHTGUN port).ret = (DeltaY s P.RETRO_DEVICE_MOUSE port).ret ∧
    (DeltaY s P.RETRO_DEVICE_LIGHTGUN port).state.m_devices = s.m_devices ∧
    (P.RETRO_DEVICE_LIGHTGUN ≠ P.RETRO_DEVICE_MOUSE →
      (∀ dev, (GetPort s port).ret = some dev →
        (DeltaX s P.RETRO_DEVICE_LIGHTGUN port).ret = (P.RelativePointerDeltaX dev).1) ∧
      ((GetPort s port).ret = none → (DeltaX s P.RETRO_DEVICE_LIGHTGUN port).ret = 0)) := by
  refine ⟨?_, ?_, ?_, ?_⟩
  · simp [DeltaY]
  · simp [DeltaY]
  · simp [DeltaY]
  · intro hne
    constructor
    · intro dev hdev
      rw [GetPort_ret] at hdev
      unfold DeltaX
      rw [if_neg hne, if_pos rfl]
      simp [mapGet_mapIndex, hdev]
    · intro hnone
      rw [GetPort_ret] at hnone
      unfold DeltaX
      rw [if_neg hne, if_pos rfl]
      simp [mapGet_mapIndex, hnone]

/-- C16 at port 7 of the sample manager, which holds a lightgun with one pending event,
while the mouse device has three. -/
theorem DeltaY_lightgun_reads_mouse_witness :
    (DeltaY sampleManager samplePlatform.RETRO_DEVICE_LIGHTGUN 7).ret = 3 ∧
    (DeltaX sampleManager samplePlatform.RETRO_DEVICE_LIGHTGUN 7).ret = 1 ∧
    (DeltaX sampleManager samplePlatform.RETRO_DEVICE_LIGHTGUN 9).ret = 0 :=
  ⟨(DeltaY_lightgun_reads_mouse sampleManager 7).1,
   ((DeltaY_lightgun_reads_mouse sampleManager 7).2.2.2 (by decide)).1
      ⟨"game.controller.lightgun", 4, 1⟩ (by decide),
   ((DeltaY_lightgun_reads_mouse sampleManager 9).2.2.2 (by decide)).2 (by decide)⟩

end Dispatch

/-! ## The device map keeps its ports ascending -/

section Ascending

variable {P : Platform}

open CInputManager

theorem mem_keys_mapAssign (m : DeviceMap P) (port k : Nat) (ptr : Option P.Device)
    (hk : k ∈ (mapAssign m port ptr).map Prod.fst) : k = port ∨ k ∈ m.map Prod.fst := by
  induction m with
  | nil => simpa [mapAssign] using hk
  | cons e rest ih =>
    obtain ⟨k0, x⟩ := e
    unfold mapAssign at hk
    split at hk
    · simpa using hk
    · split at hk
      · right; simpa using hk
      · simp only [List.map_cons, List.mem_cons] at hk ⊢
        rcases hk with h | h
        · exact Or.inr (Or.inl h)
        · rcases ih h with h2 | h2
          · exact Or.inl h2
          · exact Or.inr (Or.inr h2)

/-- An assignment keeps the ports of the entries strictly ascending. -/
theorem keysAscending_mapAssign (m : DeviceMap P) (port : Nat) (ptr : Option P.Device)
    (hwf : keysAscending m) : keysAscending (mapAssign m port ptr) := by
  induction m with
  | nil => simp [mapAssign, keysAscending]
  | cons e rest ih =>
    obtain ⟨k0, x⟩ := e
    have hwf2 : (∀ k ∈ rest.map Prod.fst, k0 < k) ∧ keysAscending rest := by
      simpa [keysAscending, List.pairwise_cons] using hwf
    unfold mapAssign
    split
    · rename_i hlt
      unfold keysAscending
      simp only [List.map_cons, List.pairwise_cons]
      refine ⟨?_, ?_⟩
      · intro k hk
        rcases List.mem_cons.1 hk with h | h
        · omega
        · have := hwf2.1 k h
          omega
      · simpa [keysAscending, List.pairwise_cons] using hwf
    · split
      · simpa [keysAscending, List.pairwise_cons] using hwf
      · rename_i h1 h2
        unfold keysAscending
        simp only [List.map_cons, List.pairwise_cons]
        refine ⟨?_, ih hwf2.2⟩
        intro k hk
        rcases mem_keys_mapAssign rest port k ptr hk with h | h
        · omega
        · exact hwf2.1 k h

theorem keysAscending_mapIndex (m : DeviceMap P) (port : Nat) (hwf : keysAscending m) :
    keysAscending (mapIndex m port) := by
  unfold mapIndex
  split
  · exact hwf
  · exact keysAscending_mapAssign m port none hwf

/-- With ascending ports, an entry of the map is the one a lookup of its port finds. -/
theorem mapFind_of_mem (m : DeviceMap P) (port : Nat) (x : Option P.Device)
    (hwf : keysAscending m) (h : (port, x) ∈ m) : mapFind m port = some x := by
  induction m with
  | nil => simp at h
  | cons e rest ih =>
    obtain ⟨k0, y⟩ := e
    have hwf2 : (∀ k ∈ rest.map Prod.fst, k0 < k) ∧ keysAscending rest := by
      simpa [keysAscending, List.pairwise_cons] using hwf
    rcases List.mem_cons.1 h with h1 | h1
    · cases h1
      simp [mapFind]
    · have hlt : k0 < port := hwf2.1 port (List.mem_map.2 ⟨(port, x), h1, rfl⟩)
      have hk : k0 ≠ port := by omega
      simp [mapFind, hk, ih hwf2.2 h1]

/-- The ports collected by `ClosePorts` are a sublist of the ports of the entries. -/
theorem occupiedPorts_sublist (m : DeviceMap P) :
    (occupiedPorts m).Sublist (m.map Prod.fst) := by
  induction m with
  | nil => simp [occupiedPorts]
  | cons e rest ih =>
    obtain ⟨k0, x⟩ := e
    cases x with
    | none =>
      simp only [occupiedPorts, List.filterMap_cons, Option.isSome_none, List.map_cons]
      exact List.Sublist.cons _ ih
    | some d =>
      simp only [occupiedPorts, List.filterMap_cons, Option.isSome_some, List.map_cons]
      exact List.Sublist.cons₂ _ ih

/-- With ascending ports, the ports collected by `ClosePorts` are the ports at which a
lookup finds a device. -/
theorem mem_occupiedPorts_iff (m : DeviceMap P) (port : Nat) (hwf : keysAscending m) :
    port ∈ occupiedPorts m ↔ mapGet m port ≠ none := by
  constructor
  · intro hmem
    obtain ⟨e, he, hport⟩ := List.mem_filterMap.1 hmem
    obtain ⟨k, x⟩ := e
    cases x with
    | none => simp at hport
    | some d =>
      simp at hport
      subst hport
      simp [mapGet, mapFind_of_mem m k (some d) hwf he]
  · intro hne
    by_contra hnot
    exact hne (mapGet_of_not_occupied m port hnot)

theorem occupiedPorts_eq_nil (m : DeviceMap P) (hwf : keysAscending m)
    (hnone : ∀ q, mapGet m q = none) : occupiedPorts m = [] := by
  apply List.eq_nil_iff_forall_not_mem.2
  intro q hq
  exact (mem_occupiedPorts_iff m q hwf).1 hq (hnone q)

/-- The second loop of `ClosePorts` keeps the ports ascending and touches neither the mouse
device nor the pressed keys. -/
theorem closeEach_frame (env : CLibretroEnvironment) (ports : List Nat)
    (s : CInputManager P) :
    (keysAscending s.m_devices → keysAscending (closeEach env s ports).state.m_devices) ∧
    (closeEach env s ports).state.m_mouseDevice = s.m_mouseDevice ∧
    (closeEach env s ports).state.m_pressedKeys = s.m_pressedKeys := by
  induction ports generalizing s with
  | nil => simp [closeEach]
  | cons port rest ih =>
    simp only [closeEach]
    refine ⟨?_, ?_, ?_⟩
    · intro hwf
      apply (ih _).1
      exact keysAscending_mapAssign _ _ _ hwf
    · rw [(ih _).2.1]; rfl
    · rw [(ih _).2.2]; rfl

end Ascending

/-! ## Reads and frames -/

section Frames

variable {P : Platform}

open CInputManager

/-- C18: `DeviceConnected(p, bConnected, d)` leaves the pointer found at every other port,
the mouse device and the pressed keys as they were; `ClosePort` and `ClosePorts` leave the
mouse device and the pressed keys as they were too; and what these calls write into the
table is the device newly made from `d` on a connect and a null pointer otherwise, so the
mouse device is neither stored in the table nor removed. -/
theorem DeviceConnected_frame (env : CLibretroEnvironment) (s : CInputManager P)
    (p q : Nat) (bConnected : Bool) (d : P.Controller) (hq : q ≠ p) :
    (GetPort (DeviceConnected s p bConnected d).state q).ret = (GetPort s q).ret ∧
    (DeviceConnected s p bConnected d).state.m_mouseDevice = s.m_mouseDevice ∧
    (DeviceConnected s p bConnected d).state.m_pressedKeys = s.m_pressedKeys ∧
    (GetPort (DeviceConnected s p bConnected d).state p).ret
      = (if bConnected then some (P.make_shared d) else none) ∧
    (GetPort (ClosePort env s p).state q).ret = (GetPort s q).ret ∧
    (GetPort (ClosePort env s p).state p).ret = none ∧
    (ClosePort env s p).state.m_mouseDevice = s.m_mouseDevice ∧
    (ClosePort env s p).state.m_pressedKeys = s.m_pressedKeys ∧
    (ClosePorts env s).state.m_mouseDevice = s.m_mouseDevice ∧
    (ClosePorts env s).state.m_pressedKeys = s.m_pressedKeys := by
  refine ⟨?_, ?_, ?_, ?_, ?_, ?_, rfl, rfl, ?_, ?_⟩
  · apply GetPort_ret_of_map_eq
    cases bConnected <;> simp [DeviceConnected, mapGet_mapAssign_other _ _ _ _ hq]
  · cases bConnected <;> simp [DeviceConnected]
  · cases bConnected <;> simp [DeviceConnected]
  · rw [GetPort_ret]
    cases bConnected <;> simp [DeviceConnected, mapGet_mapAssign_same]
  · apply GetPort_ret_of_map_eq
    simp [ClosePort, mapGet_mapAssign_other _ _ _ _ hq]
  · rw [GetPort_ret]
    simp [ClosePort, mapGet_mapAssign_same]
  · exact (closeEach_frame env _ s).2.1
  · exact (closeEach_frame env _ s).2.2

/-- C18 on the sample manager: a connect and a disconnect at port 3 leave port 7 as it was,
and the mouse device stays the one the manager held. -/
theorem DeviceConnected_frame_witness :
    (7 : Nat) ≠ 3 ∧
    (GetPort (DeviceConnected sampleManager 3 true ("game.controller.mouse", 2)).state 7).ret
      = some ⟨"game.controller.lightgun", 4, 1⟩ ∧
    (GetPort (DeviceConnected sampleManager 3 false ("", 0)).state 7).ret
      = some ⟨"game.controller.lightgun", 4, 1⟩ ∧
    (DeviceConnected sampleManager 3 true ("game.controller.mouse", 2)).state.m_mouseDevice
      = ⟨"game.controller.mouse", 2, 3⟩ :=
  ⟨by decide,
   (DeviceConnected_frame sampleEnvironment sampleManager 3 7 true
      ("game.controller.mouse", 2) (by decide)).1,
   (DeviceConnected_frame sampleEnvironment sampleManager 3 7 false ("", 0) (by decide)).1,
   (DeviceConnected_frame sampleEnvironment sampleManager 3 7 true
      ("game.controller.mouse", 2) (by decide)).2.1⟩

/-- C19: a press or a release of `c` leaves `IsPressed(d)` and the number of entries of `d`
as they were for every character `d` other than `c`; a release of `c` leaves the entries
whose character differs from `c`, all of them and in their order; a press of `c` appends
the one entry of the event at the end. -/
theorem key_events_frame (s : CInputManager P) (key : game_key_event) (d : Nat)
    (hd : d ≠ key.character) :
    IsPressed (HandlePress s key) d = IsPressed s d ∧
    entriesOf (HandlePress s key) d = entriesOf s d ∧
    (key.pressed = false →
      (HandlePress s key).m_pressedKeys
        = s.m_pressedKeys.filter (fun k => decide (k.character ≠ key.character))) ∧
    (key.pressed = true → (HandlePress s key).m_pressedKeys = s.m_pressedKeys ++ [key]) ∧
    (HandlePress s key).m_devices = s.m_devices ∧
    (HandlePress s key).m_mouseDevice = s.m_mouseDevice := by
  have hcount : entriesOf (HandlePress s key) d = entriesOf s d := by
    cases hp : key.pressed with
    | true =>
      rw [entriesOf_press s key d hp]
      simp [Ne.symm hd]
    | false =>
      have hkeys : (HandlePress s key).m_pressedKeys
          = s.m_pressedKeys.filter (fun k => !decide (k.character = key.character)) := by
        simp [HandlePress, pressedAfter, hp]
      simp only [entriesOf, hkeys, List.countP_filter]
      apply List.countP_congr
      intro k _
      simp only [Bool.and_eq_true, decide_eq_true_eq, Bool.not_eq_true',
        decide_eq_false_iff_not]
      constructor
      · intro h; exact h.1
      · intro h; exact ⟨h, fun hc => hd (h.symm.trans hc)⟩
  refine ⟨?_, hcount, ?_, ?_, rfl, rfl⟩
  · rw [IsPressed_eq_entriesOf, IsPressed_eq_entriesOf, hcount]
  · intro hp
    simp [HandlePress, pressedAfter, hp]
  · intro hp
    simp [HandlePress, pressedAfter, hp]

/-- C19 on the sample manager, which holds 97: a press and a release of 98. -/
theorem key_events_frame_witness :
    (97 : Nat) ≠ (game_key_event.mk true 98 0).character ∧
    IsPressed (HandlePress sampleManager ⟨true, 98, 0⟩) 97 = IsPressed sampleManager 97 ∧
    IsPressed (HandlePress sampleManager ⟨false, 98, 0⟩) 97 = IsPressed sampleManager 97 ∧
    (HandlePress sampleManager ⟨true, 98, 0⟩).m_pressedKeys = [⟨true, 97, 0⟩, ⟨true, 98, 0⟩] :=
  ⟨by decide,
   (key_events_frame sampleManager ⟨true, 98, 0⟩ 97 (by decide)).1,
   (key_events_frame sampleManager ⟨false, 98, 0⟩ 97 (by decide)).1,
   (key_events_frame sampleManager ⟨true, 98, 0⟩ 97 (by decide)).2.2.2.1 rfl⟩

/-- C20: with a frontend attached and the ports of the map ascending, `ClosePorts` sends
the notification `ClosePort(p)` for the ports that hold a device, each once and in
ascending order, and for no port whose entry is empty; a second `ClosePorts` sends no
notification and leaves the manager as the first left it. -/
theorem ClosePorts_notifies_once (env : CLibretroEnvironment) (s : CInputManager P)
    (hwf : keysAscending s.m_devices) (hfront : env.frontend = true) :
    (ClosePorts env s).calls = (occupiedPorts s.m_devices).map Call.ClosePort ∧
    (occupiedPorts s.m_devices).Pairwise (fun a b => a < b) ∧
    (∀ p, p ∈ occupiedPorts s.m_devices ↔ (GetPort s p).ret ≠ none) ∧
    (ClosePorts env (ClosePorts env s).state).calls = [] ∧
    (ClosePorts env (ClosePorts env s).state).state = (ClosePorts env s).state := by
  have hnone : ∀ q, mapGet (ClosePorts env s).state.m_devices q = none := by
    intro q
    unfold ClosePorts
    rw [closeEach_mapGet]
    split
    · rfl
    · rename_i h
      exact mapGet_of_not_occupied _ _ h
  have hwf2 : keysAscending (ClosePorts env s).state.m_devices :=
    (closeEach_frame env _ s).1 hwf
  have hnil : occupiedPorts (ClosePorts env s).state.m_devices = [] :=
    occupiedPorts_eq_nil _ hwf2 hnone
  refine ⟨?_, ?_, ?_, ?_, ?_⟩
  · unfold ClosePorts
    rw [closeEach_calls, hfront]
    rfl
  · exact List.Pairwise.sublist (occupiedPorts_sublist s.m_devices) hwf
  · intro p
    rw [GetPort_ret]
    exact mem_occupiedPorts_iff s.m_devices p hwf
  · show (closeEach env _ (occupiedPorts (ClosePorts env s).state.m_devices)).calls = []
    rw [hnil]
    rfl
  · show (closeEach env _ (occupiedPorts (ClosePorts env s).state.m_devices)).state = _
    rw [hnil]
    rfl

/-- C20 on the sample manager, whose ports 1, 3, 7 and 4294967294 hold a device and
whose port 5 has an entry holding a null pointer. -/
theorem ClosePorts_notifies_once_witness :
    keysAscending sampleManager.m_devices ∧
    sampleEnvironment.frontend = true ∧
    (ClosePorts sampleEnvironment sampleManager).calls
      = [Call.ClosePort 1, Call.ClosePort 3, Call.ClosePort 7, Call.ClosePort 4294967294] ∧
    (ClosePorts sampleEnvironment
      (ClosePorts sampleEnvironment sampleManager).state).calls = [] :=
  ⟨by decide, rfl,
   (ClosePorts_notifies_once sampleEnvironment sampleManager (by decide) rfl).1,
   (ClosePorts_notifies_once sampleEnvironment sampleManager (by decide) rfl).2.2.2.1⟩

/-- The invariant holds of the manager as constructed and every member function keeps it,
so it holds in every state the manager reaches. -/
theorem keysAscending_invariant (env : CLibretroEnvironment) (s : CInputManager P)
    (port device i : Nat) (b : Bool) (d : P.Controller) (x y z : P.Scalar)
    (event : game_input_event P.Payload) (hwf : keysAscending s.m_devices) :
    keysAscending (CInputManager.new P).m_devices ∧
    keysAscending (DeviceConnected s port b d).state.m_devices ∧
    keysAscending (GetDevice s port).state.m_devices ∧
    keysAscending (GetPort s port).state.m_devices ∧
    keysAscending (ClosePort env s port).state.m_devices ∧
    keysAscending (ClosePorts env s).state.m_devices ∧
    keysAscending (InputEvent env s event).state.m_devices ∧
    keysAscending (ControllerID s port).state.m_devices ∧
    keysAscending (ButtonState s device port i).state.m_devices ∧
    keysAscending (DeltaX s device port).state.m_devices ∧
    keysAscending (DeltaY s device port).state.m_devices ∧
    keysAscending (AnalogStickState s port i x y).state.m_devices ∧
    keysAscending (AbsolutePointerState s port i x y).state.m_devices ∧
    keysAscending (AccelerometerState s port x y z).state.m_devices := by
  have hidx : ∀ p, keysAscending (mapIndex s.m_devices p) :=
    fun p => keysAscending_mapIndex _ p hwf
  have hasg : ∀ p v, keysAscending (mapAssign (mapIndex s.m_devices p) p v) :=
    fun p v => keysAscending_mapAssign _ p v (hidx p)
  refine ⟨?_, ?_, ?_, ?_, ?_, ?_, ?_, ?_, ?_, ?_, ?_, ?_, ?_, ?_⟩
  · simp [CInputManager.new, keysAscending]
  · cases b <;> exact keysAscending_mapAssign _ _ _ hwf
  · cases h : mapGet s.m_devices port <;> simp [GetDevice, mapGet_mapIndex, h] <;>
      exact hidx _
  · exact hidx _
  · exact keysAscending_mapAssign _ _ _ hwf
  · exact (closeEach_frame env _ s).1 hwf
  · by_cases h1 : event.type = P.GAME_INPUT_EVENT_KEY
    · simpa [InputEvent, h1, HandlePress] using hwf
    · by_cases h2 : event.port = P.GAME_INPUT_PORT_MOUSE
      · simpa [InputEvent, h1, h2] using hwf
      · cases h : mapGet s.m_devices (toUnsigned event.port) <;>
          simp [InputEvent, h1, h2, mapGet_mapIndex, h] <;>
          first | exact hidx _ | exact hasg _ _
  · cases h : mapGet s.m_devices port <;> simp [ControllerID, mapGet_mapIndex, h] <;>
      exact hidx _
  · by_cases h1 : device = P.RETRO_DEVICE_KEYBOARD
    · simpa [ButtonState, h1] using hwf
    · by_cases h2 : device = P.RETRO_DEVICE_MOUSE
      · unfold ButtonState
        rw [if_neg h1, if_pos h2]
        exact hwf
      · cases h : mapGet s.m_devices port <;>
          simp [ButtonState, h1, h2, mapGet_mapIndex, h] <;>
          first | exact hidx _ | exact hasg _ _
  · unfold DeltaX
    split
    · exact hwf
    · split
      · cases h : mapGet s.m_devices port <;> simp [mapGet_mapIndex, h] <;>
          first | exact hidx _ | exact hasg _ _
      · exact hwf
  · unfold DeltaY
    split
    · exact hwf
    · split
      · cases h : mapGet s.m_devices port <;> simp [mapGet_mapIndex, h] <;>
          first | exact hidx _ | exact hasg _ _
      · exact hwf
  · cases h : mapGet s.m_devices port <;> simp [AnalogStickState, mapGet_mapIndex, h] <;>
      first | exact hidx _ | exact hasg _ _
  · cases h : mapGet s.m_devices port <;> simp [AbsolutePointerState, mapGet_mapIndex, h] <;>
      first | exact hidx _ | exact hasg _ _
  · cases h : mapGet s.m_devices port <;> simp [AccelerometerState, mapGet_mapIndex, h] <;>
      first | exact hidx _ | exact hasg _ _

end Frames

end LIBRETRO
